import Mathlib

/-!
Verification of the keyboard event dispatch and redispatch arbiter
(`KeyboardKeyHandler`) of the Windows embedder.

The repository ships the unit tests
(`shell/platform/windows/keyboard_key_handler_unittests.cc`); the handler
implementation itself (`keyboard_key_handler.cc/.h`) is not part of the
source tree, so the arbiter below is modelled from the specification,
with the unit tests taken as the authority wherever they pin concrete
behavior (return values, injector arguments, redispatch counts).
-/

/-- A key event as delivered to `KeyboardHook`.  The whole record is the
*fingerprint* used by the redispatch guard: the tuple
(virtual-key, scan-code, action, character, extended, was-down). -/
structure KeyEvent where
  key : Nat
  scancode : Nat
  action : Nat
  character : Nat
  extended : Bool
  wasDown : Bool
deriving DecidableEq, Repr

/-- The action code the OS layer uses for key-down (`WM_KEYDOWN`). -/
def WM_KEYDOWN : Nat := 256

/-- The action code the OS layer uses for key-up (`WM_KEYUP`). -/
def WM_KEYUP : Nat := 257

/-- Modelled from the spec: the per-event aggregation record (`PendingEvent`),
alive from fan-out until the last delegate verdict arrives.  It carries a
monotonically assigned sequence id, a copy of the originating event, the
count of delegates that have not yet replied, and the OR of the verdicts
received so far. -/
structure PendingEvent where
  sequenceId : Nat
  event : KeyEvent
  unreplied : Nat
  anyHandled : Bool
deriving DecidableEq, Repr

/-- Modelled from the spec: one synthesized-input descriptor handed to the
EventInjector.  Its required field is the keyboard scan code, matched
against fingerprints on re-entry (the tests read `pInputs->ki.wScan`). -/
structure InputDescriptor where
  wScan : Nat
deriving DecidableEq, Repr

/-- Modelled from the spec: the byte size of one platform-native
synthesized-input structure.  Only its positivity is observable
(the tests assert `cbSize > 0`). -/
def inputByteSize : Nat := 40

/-- Modelled from the spec: one recorded invocation of the EventInjector:
the count of descriptors, the descriptor array, the byte size argument,
and the count of events the injector reported as accepted. -/
structure InjectorCall where
  cInputs : Nat
  inputs : List InputDescriptor
  cbSize : Nat
  accepted : Nat
deriving DecidableEq, Repr

/-- Modelled from the spec: the arbiter calls the injector with exactly one
descriptor per unhandled event, carrying the event's scan code. -/
def mkInjectorCall (e : KeyEvent) (accepted : Nat) : InjectorCall :=
  { cInputs := 1, inputs := [{ wScan := e.scancode }],
    cbSize := inputByteSize, accepted := accepted }

/-- Modelled from the spec: the state of a `KeyboardKeyHandler`.

* `delegateCount` — size of the delegate registry (delegates are added
  before the first dispatch; order carries no semantic difference, so only
  the count is state).
* `lastSequenceId` — the last sequence id assigned to a `PendingEvent`.
* `pendingResponds` — the in-flight `PendingEvent`s, in dispatch order.
* `pendingRedispatches` — the `RedispatchGuard`: the multiset (here a list
  up to permutation) of fingerprints awaiting re-entry.

The remaining fields are observation traces used to state properties:
`injectorCalls` records every EventInjector invocation, `delegateCalls`
records every event handed to a delegate hook (once per delegate), and
`guardHits` counts re-entered events removed by the guard check. -/
structure KeyboardKeyHandler where
  delegateCount : Nat
  lastSequenceId : Nat
  pendingResponds : List PendingEvent
  pendingRedispatches : List KeyEvent
  injectorCalls : List InjectorCall
  delegateCalls : List KeyEvent
  guardHits : Nat
deriving DecidableEq, Repr

namespace KeyboardKeyHandler

/-- A freshly constructed handler with `n` delegates registered (the spec's
construction plus `AddDelegate` calls, all before the first dispatch):
empty in-flight set, empty guard, no observations yet. -/
def initial (n : Nat) : KeyboardKeyHandler :=
  { delegateCount := n, lastSequenceId := 0, pendingResponds := [],
    pendingRedispatches := [], injectorCalls := [], delegateCalls := [],
    guardHits := 0 }

/-- `RedispatchedCount`: the current size of the `RedispatchGuard`. -/
def RedispatchedCount (s : KeyboardKeyHandler) : Nat :=
  s.pendingRedispatches.length

/-- Modelled from the spec: the redispatch step of the resolution: insert the
event's fingerprint into the guard, then call the EventInjector with one
synthesized descriptor.  `accepted` is the injector's return value; the
arbiter records the fingerprint regardless of it (pessimistic contract). -/
def RedispatchEvent (s : KeyboardKeyHandler) (e : KeyEvent) (accepted : Nat) :
    KeyboardKeyHandler :=
  { s with pendingRedispatches := s.pendingRedispatches ++ [e],
           injectorCalls := s.injectorCalls ++ [mkInjectorCall e accepted] }

/-- Modelled from the spec: walk the in-flight list looking for the pending
event with the given sequence id; OR in the verdict and decrement
`unreplied`.  When the last delegate has replied, drop the record and
report the event to redispatch (if no delegate handled it).  Returns the
updated list and `some e` exactly when `e` must now be redispatched. -/
def resolveInList : List PendingEvent → Nat → Bool →
    List PendingEvent × Option KeyEvent
  | [], _, _ => ([], none)
  | p :: rest, seqId, handled =>
    if p.sequenceId = seqId then
      if p.unreplied - 1 = 0 then
        (rest, if p.anyHandled || handled then none else some p.event)
      else
        ({ p with anyHandled := p.anyHandled || handled,
                  unreplied := p.unreplied - 1 } :: rest, none)
    else
      ((p :: (resolveInList rest seqId handled).1),
       (resolveInList rest seqId handled).2)

/-- Modelled from the spec: `ResolvePendingEvent` — a completion sink firing
with verdict `handled` for the pending event identified by `seqId`.
`accepted` is what the EventInjector returns if this completion triggers a
redispatch.  A sink firing for an unknown sequence id is a no-op
(the protocol violation is not recovered). -/
def ResolvePendingEvent (s : KeyboardKeyHandler) (seqId : Nat)
    (handled : Bool) (accepted : Nat) : KeyboardKeyHandler :=
  let r := resolveInList s.pendingResponds seqId handled
  match r.2 with
  | none => { s with pendingResponds := r.1 }
  | some e => RedispatchEvent { s with pendingResponds := r.1 } e accepted

/-- A burst of completion-sink firings for the pending event `seqId`, one
per delegate verdict, in the order the verdicts arrive. -/
def resolveFold (s : KeyboardKeyHandler) (seqId : Nat) (accepted : Nat)
    (verdicts : List Bool) : KeyboardKeyHandler :=
  verdicts.foldl (fun t v => ResolvePendingEvent t seqId v accepted) s

/-- Modelled from the spec: `KeyboardHook`, the sole ingress.
1. guard check: a fingerprint present in the guard is removed once and the
   event declines (`false`) without touching any delegate;
2. empty registry declines (`false`);
3. otherwise allocate a `PendingEvent` with a fresh sequence id and
   `unreplied = delegateCount`, fan out to every delegate, and return
   `true` (the unit tests pin the return value at `true` even when all
   delegates complete synchronously during fan-out). -/
def KeyboardHook (s : KeyboardKeyHandler) (e : KeyEvent) :
    Bool × KeyboardKeyHandler :=
  if e ∈ s.pendingRedispatches then
    (false, { s with pendingRedispatches := s.pendingRedispatches.erase e,
                     guardHits := s.guardHits + 1 })
  else if s.delegateCount = 0 then
    (false, s)
  else
    let p : PendingEvent :=
      { sequenceId := s.lastSequenceId + 1, event := e,
        unreplied := s.delegateCount, anyHandled := false }
    (true, { s with lastSequenceId := s.lastSequenceId + 1,
                    pendingResponds := s.pendingResponds ++ [p],
                    delegateCalls :=
                      s.delegateCalls ++ List.replicate s.delegateCount e })

/-- Modelled from the spec: a `KeyboardHook` call in which every delegate
replies synchronously: each completion sink fires during fan-out, before
the hook returns, with the verdicts given in registry order.  The returned
boolean is the hook's return value. -/
def KeyboardHookAllSync (s : KeyboardKeyHandler) (e : KeyEvent)
    (verdicts : List Bool) (accepted : Nat) : Bool × KeyboardKeyHandler :=
  if e ∈ s.pendingRedispatches ∨ s.delegateCount = 0 then
    KeyboardHook s e
  else
    let r := KeyboardHook s e
    (r.1, resolveFold r.2 (s.lastSequenceId + 1) accepted verdicts)

/-- An externally observable step: either the OS delivers a key event to
`KeyboardHook`, or some delegate's completion sink fires (on any thread)
with a verdict for a sequence id; `accepted` is the injector's return
value should that completion trigger an injection. -/
inductive Action where
  | hook (e : KeyEvent)
  | resolve (seqId : Nat) (handled : Bool) (accepted : Nat)
deriving DecidableEq, Repr

/-- Apply one observable step to the handler state. -/
def step (s : KeyboardKeyHandler) : Action → KeyboardKeyHandler
  | .hook e => (KeyboardHook s e).2
  | .resolve seqId handled accepted =>
      ResolvePendingEvent s seqId handled accepted

/-- Run a sequence of observable steps. -/
def run (s : KeyboardKeyHandler) (l : List Action) : KeyboardKeyHandler :=
  l.foldl step s

/-- The action is a completion-sink firing for the pending event with
sequence id `q`. -/
def IsResolveOf (q : Nat) : Action → Prop
  | .hook _ => False
  | .resolve seqId _ _ => seqId = q

/-- `Interleave l1 l2 l`: `l` is an interleaving of `l1` and `l2`, keeping
the relative order within each of the two lists (the order in which a
single delegate delivers its verdicts for one event is fixed; verdicts of
distinct events may arrive interleaved in any way). -/
inductive Interleave : List Action → List Action → List Action → Prop
  | nil : Interleave [] [] []
  | left {a : Action} {l1 l2 l : List Action} :
      Interleave l1 l2 l → Interleave (a :: l1) l2 (a :: l)
  | right {a : Action} {l1 l2 l : List Action} :
      Interleave l1 l2 l → Interleave l1 (a :: l2) (a :: l)

/-- Two handler states that agree on everything that can influence future
behavior, with the redispatch guard and the injector-call trace compared
as multisets (lists up to permutation); the per-delegate call trace is not
compared. -/
def StateSim (s t : KeyboardKeyHandler) : Prop :=
  s.delegateCount = t.delegateCount ∧
  s.lastSequenceId = t.lastSequenceId ∧
  s.pendingResponds = t.pendingResponds ∧
  List.Perm s.pendingRedispatches t.pendingRedispatches ∧
  List.Perm s.injectorCalls t.injectorCalls ∧
  s.guardHits = t.guardHits

end KeyboardKeyHandler

/-- The key event of unit-test 1 of `SingleDelegateWithAsyncResponds`:
`KeyboardHook(64, kHandledScanCode, WM_KEYDOWN, L'a', false, true)`. -/
def eventA : KeyEvent :=
  { key := 64, scancode := 20, action := WM_KEYDOWN, character := 97,
    extended := false, wasDown := true }

/-- The key event the unit tests dispatch and leave unhandled:
`KeyboardHook(64, kHandledScanCode, WM_KEYDOWN, L'a', false, false)`. -/
def eventB : KeyEvent :=
  { key := 64, scancode := 20, action := WM_KEYDOWN, character := 97,
    extended := false, wasDown := false }

/-- The second key event of unit-test 2 of `SingleDelegateWithAsyncResponds`:
`KeyboardHook(65, kHandledScanCode2, WM_KEYUP, L'b', false, true)`. -/
def eventC : KeyEvent :=
  { key := 65, scancode := 22, action := WM_KEYUP, character := 98,
    extended := false, wasDown := true }

namespace KeyboardKeyHandler

theorem run_nil (s : KeyboardKeyHandler) : run s [] = s := rfl

theorem run_cons (s : KeyboardKeyHandler) (a : Action) (l : List Action) :
    run s (a :: l) = run (step s a) l := rfl

theorem run_append (s : KeyboardKeyHandler) (l1 l2 : List Action) :
    run s (l1 ++ l2) = run (run s l1) l2 :=
  List.foldl_append step s l1 l2

theorem KeyboardHook_guard_hit (s : KeyboardKeyHandler) (e : KeyEvent)
    (h : e ∈ s.pendingRedispatches) :
    KeyboardHook s e = (false,
      { s with pendingRedispatches := s.pendingRedispatches.erase e,
               guardHits := s.guardHits + 1 }) := by
  simp [KeyboardHook, h]

theorem KeyboardHook_empty (s : KeyboardKeyHandler) (e : KeyEvent)
    (hg : e ∉ s.pendingRedispatches) (hd : s.delegateCount = 0) :
    KeyboardHook s e = (false, s) := by
  simp [KeyboardHook, hg, hd]

theorem KeyboardHook_dispatch (s : KeyboardKeyHandler) (e : KeyEvent)
    (hg : e ∉ s.pendingRedispatches) (hd : s.delegateCount ≠ 0) :
    KeyboardHook s e = (true, { s with
      lastSequenceId := s.lastSequenceId + 1,
      pendingResponds := s.pendingResponds ++
        [{ sequenceId := s.lastSequenceId + 1, event := e,
           unreplied := s.delegateCount, anyHandled := false }],
      delegateCalls := s.delegateCalls ++ List.replicate s.delegateCount e }) := by
  simp [KeyboardHook, hg, hd]

end KeyboardKeyHandler

open KeyboardKeyHandler

/-- Claim C9: with an empty delegate registry, a non-guarded event declines:
`KeyboardHook` returns `false` and leaves the state untouched — no delegate
is invoked, no `PendingEvent` is created (so no later resolution can ever
inject this event), and the EventInjector is not called. -/
theorem empty_registry_declines (s : KeyboardKeyHandler) (e : KeyEvent)
    (hg : e ∉ s.pendingRedispatches) (hd : s.delegateCount = 0) :
    KeyboardHook s e = (false, s) :=
  KeyboardHook_empty s e hg hd

/-- Witness for `empty_registry_declines` at a handler with no delegates and
the first test event. -/
theorem empty_registry_declines_witness :
    KeyboardHook (initial 0) eventA = (false, initial 0) :=
  empty_registry_declines (initial 0) eventA (by decide) (by decide)

/-- Claim C1: guard matching uses the full six-field fingerprint.  A freshly
observed event equal to a guarded fingerprint in all of virtual-key,
scan-code, action, character, extended and was-down is a guarded re-entry:
`KeyboardHook` returns `false`, removes one occurrence from the guard and
counts a guard hit, leaving `pendingResponds` and `delegateCalls` unchanged
(no `PendingEvent`, no delegate invocation).  An event that differs from
every guarded fingerprint in at least one of the six fields is dispatched
fresh to the delegates. -/
theorem guard_full_fingerprint_match (s : KeyboardKeyHandler) (e : KeyEvent) :
    (e ∈ s.pendingRedispatches →
      KeyboardHook s e = (false,
        { s with pendingRedispatches := s.pendingRedispatches.erase e,
                 guardHits := s.guardHits + 1 })) ∧
    ((∀ f ∈ s.pendingRedispatches,
        f.key ≠ e.key ∨ f.scancode ≠ e.scancode ∨ f.action ≠ e.action ∨
        f.character ≠ e.character ∨ f.extended ≠ e.extended ∨
        f.wasDown ≠ e.wasDown) →
      s.delegateCount ≠ 0 →
      KeyboardHook s e = (true, { s with
        lastSequenceId := s.lastSequenceId + 1,
        pendingResponds := s.pendingResponds ++
          [{ sequenceId := s.lastSequenceId + 1, event := e,
             unreplied := s.delegateCount, anyHandled := false }],
        delegateCalls :=
          s.delegateCalls ++ List.replicate s.delegateCount e })) := by
  constructor
  · intro h
    exact KeyboardHook_guard_hit s e h
  · intro hdiff hd
    have hg : e ∉ s.pendingRedispatches := by
      intro hmem
      rcases hdiff e hmem with h | h | h | h | h | h <;> exact h rfl
    exact KeyboardHook_dispatch s e hg hd

/-- Witness for `guard_full_fingerprint_match`: with the test event `eventB`
in the guard, re-dispatching `eventB` is a pass-through, while dispatching
`eventA` (which differs from `eventB` only in the was-down field) reaches
the delegate as a fresh event. -/
theorem guard_full_fingerprint_match_witness :
    (KeyboardHook { initial 1 with pendingRedispatches := [eventB] }
      eventB).1 = false ∧
    (KeyboardHook { initial 1 with pendingRedispatches := [eventB] }
      eventA).1 = true := by
  constructor
  · rw [(guard_full_fingerprint_match
      { initial 1 with pendingRedispatches := [eventB] } eventB).1 (by decide)]
  · rw [(guard_full_fingerprint_match
      { initial 1 with pendingRedispatches := [eventB] } eventA).2
      (by decide) (by decide)]

/-- Claim C8: when the final delegate verdict of an all-unhandled event comes
back and the EventInjector reports `0` accepted events (total injection
failure), the arbiter still appends the event's fingerprint to the
RedispatchGuard, and `RedispatchedCount` is incremented exactly as it is on
a successful injection (`accepted = k`). -/
theorem injection_failure_still_records (s : KeyboardKeyHandler)
    (p : PendingEvent) (rest : List PendingEvent) (k : Nat)
    (hpr : s.pendingResponds = p :: rest) (hun : p.unreplied = 1)
    (hah : p.anyHandled = false) :
    (ResolvePendingEvent s p.sequenceId false 0).pendingRedispatches
      = s.pendingRedispatches ++ [p.event] ∧
    RedispatchedCount (ResolvePendingEvent s p.sequenceId false 0)
      = RedispatchedCount s + 1 ∧
    (ResolvePendingEvent s p.sequenceId false 0).pendingRedispatches
      = (ResolvePendingEvent s p.sequenceId false k).pendingRedispatches ∧
    RedispatchedCount (ResolvePendingEvent s p.sequenceId false k)
      = RedispatchedCount s + 1 := by
  simp [ResolvePendingEvent, resolveInList, hpr, hun, hah, RedispatchEvent,
    RedispatchedCount]

/-- Witness for `injection_failure_still_records` at the state reached after
dispatching `eventB` on a fresh single-delegate handler. -/
theorem injection_failure_still_records_witness :
    (ResolvePendingEvent (KeyboardHook (initial 1) eventB).2 1 false
      0).pendingRedispatches = [] ++ [eventB] ∧
    RedispatchedCount (ResolvePendingEvent (KeyboardHook (initial 1) eventB).2
      1 false 0) = RedispatchedCount (KeyboardHook (initial 1) eventB).2 + 1 ∧
    (ResolvePendingEvent (KeyboardHook (initial 1) eventB).2 1 false
      0).pendingRedispatches =
      (ResolvePendingEvent (KeyboardHook (initial 1) eventB).2 1 false
        5).pendingRedispatches ∧
    RedispatchedCount (ResolvePendingEvent (KeyboardHook (initial 1) eventB).2
      1 false 5) = RedispatchedCount (KeyboardHook (initial 1) eventB).2 + 1 :=
  injection_failure_still_records (KeyboardHook (initial 1) eventB).2
    { sequenceId := 1, event := eventB, unreplied := 1, anyHandled := false }
    [] 5 (by decide) (by decide) (by decide)

theorem resolveInList_mem_of_ne {l : List PendingEvent} {q : Nat} {v : Bool}
    {p : PendingEvent} (hp : p ∈ l) (hne : p.sequenceId ≠ q) :
    p ∈ (resolveInList l q v).1 := by
  induction l with
  | nil => simp at hp
  | cons x rest ih =>
    by_cases hx : x.sequenceId = q
    · have hpx : p ≠ x := by
        intro h
        exact hne (h ▸ hx)
      have hpr : p ∈ rest := by
        rcases List.mem_cons.mp hp with h | h
        · exact absurd h hpx
        · exact h
      by_cases hz : x.unreplied - 1 = 0
      · simp [resolveInList, hx, hz, hpr]
      · simp [resolveInList, hx, hz, hpr]
    · rcases List.mem_cons.mp hp with h | h
      · simp [resolveInList, hx, h]
      · simp [resolveInList, hx]
        exact Or.inr (ih h)

theorem mem_pendingResponds_step {s : KeyboardKeyHandler} {p : PendingEvent}
    {a : Action} (hp : p ∈ s.pendingResponds)
    (ha : ¬ IsResolveOf p.sequenceId a) :
    p ∈ (step s a).pendingResponds := by
  cases a with
  | hook e =>
    by_cases h1 : e ∈ s.pendingRedispatches
    · simp [step, KeyboardHook, h1, hp]
    · by_cases h2 : s.delegateCount = 0
      · simp [step, KeyboardHook, h1, h2, hp]
      · simp [step, KeyboardHook, h1, h2, hp]
  | resolve q v k =>
    have hne0 : q ≠ p.sequenceId := by
      simpa [IsResolveOf] using ha
    have hne : p.sequenceId ≠ q := hne0.symm
    have hmem := resolveInList_mem_of_ne (v := v) hp hne
    cases hr : (resolveInList s.pendingResponds q v).2 with
    | none => simpa [step, ResolvePendingEvent, hr] using hmem
    | some e => simpa [step, ResolvePendingEvent, hr, RedispatchEvent] using hmem

theorem mem_pendingResponds_run {s : KeyboardKeyHandler} {p : PendingEvent}
    (hp : p ∈ s.pendingResponds) (l : List Action)
    (hl : ∀ a ∈ l, ¬ IsResolveOf p.sequenceId a) :
    p ∈ (run s l).pendingResponds := by
  induction l generalizing s with
  | nil => simpa [run] using hp
  | cons a rest ih =>
    rw [run_cons]
    exact ih (mem_pendingResponds_step hp (hl a (List.mem_cons_self a rest)))
      (fun b hb => hl b (List.mem_cons_of_mem a hb))

/-- Claim C7: a `PendingEvent` whose delegates have not all replied has not
caused an injection.  Dispatching a non-guarded event on a non-empty
registry returns `true`, leaves the injector-call trace and the
`RedispatchedCount` untouched, and creates a `PendingEvent` with
`unreplied = delegateCount > 0`; as long as no completion sink fires for its
sequence id, that `PendingEvent` stays in flight through any further
sequence of hooks and completions. -/
theorem stalled_delegate_pending (s : KeyboardKeyHandler) (e : KeyEvent)
    (hg : e ∉ s.pendingRedispatches) (hd : s.delegateCount ≠ 0) :
    (KeyboardHook s e).1 = true ∧
    (KeyboardHook s e).2.injectorCalls = s.injectorCalls ∧
    RedispatchedCount (KeyboardHook s e).2 = RedispatchedCount s ∧
    0 < s.delegateCount ∧
    (∀ l : List Action, (∀ a ∈ l, ¬ IsResolveOf (s.lastSequenceId + 1) a) →
      ({ sequenceId := s.lastSequenceId + 1, event := e,
         unreplied := s.delegateCount, anyHandled := false } : PendingEvent) ∈
        (run (KeyboardHook s e).2 l).pendingResponds) := by
  rw [KeyboardHook_dispatch s e hg hd]
  refine ⟨rfl, rfl, rfl, Nat.pos_of_ne_zero hd, ?_⟩
  intro l hl
  exact mem_pendingResponds_run (by simp) l hl

/-- Witness for `stalled_delegate_pending`: the stalled-delegate scenario of
the async unit test — dispatch `eventB` on a single-delegate handler whose
delegate never fires its sink, then observe another unrelated dispatch and
completion. -/
theorem stalled_delegate_pending_witness :
    (KeyboardHook (initial 1) eventB).1 = true ∧
    (KeyboardHook (initial 1) eventB).2.injectorCalls = (initial 1).injectorCalls ∧
    RedispatchedCount (KeyboardHook (initial 1) eventB).2
      = RedispatchedCount (initial 1) ∧
    0 < (initial 1).delegateCount ∧
    ({ sequenceId := 1, event := eventB, unreplied := 1,
       anyHandled := false } : PendingEvent) ∈
      (run (KeyboardHook (initial 1) eventB).2
        [Action.hook eventC, Action.resolve 2 false 1]).pendingResponds := by
  have h := stalled_delegate_pending (initial 1) eventB (by decide) (by decide)
  refine ⟨h.1, h.2.1, h.2.2.1, h.2.2.2.1, ?_⟩
  refine h.2.2.2.2 [Action.hook eventC, Action.resolve 2 false 1] ?_
  intro a ha
  rcases List.mem_cons.mp ha with h1 | h1
  · subst h1
    simp [IsResolveOf, initial]
  · rcases List.mem_cons.mp h1 with h2 | h2
    · subst h2
      simp [IsResolveOf, initial]
    · simp at h2

theorem injectorCalls_step {s : KeyboardKeyHandler} {a : Action}
    {P : InjectorCall → Prop} (hs : ∀ c ∈ s.injectorCalls, P c)
    (hmk : ∀ (e : KeyEvent) (k : Nat), P (mkInjectorCall e k)) :
    ∀ c ∈ (step s a).injectorCalls, P c := by
  cases a with
  | hook e =>
    by_cases h1 : e ∈ s.pendingRedispatches
    · simpa [step, KeyboardHook, h1] using hs
    · by_cases h2 : s.delegateCount = 0
      · simpa [step, KeyboardHook, h1, h2] using hs
      · simpa [step, KeyboardHook, h1, h2] using hs
  | resolve q v k =>
    cases hr : (resolveInList s.pendingResponds q v).2 with
    | none =>
      simpa [step, ResolvePendingEvent, hr] using hs
    | some e =>
      intro c hc
      simp [step, ResolvePendingEvent, hr, RedispatchEvent] at hc
      rcases hc with hc | hc
      · exact hs c hc
      · subst hc
        exact hmk e k

theorem injectorCalls_run {s : KeyboardKeyHandler} {P : InjectorCall → Prop}
    (hs : ∀ c ∈ s.injectorCalls, P c)
    (hmk : ∀ (e : KeyEvent) (k : Nat), P (mkInjectorCall e k))
    (l : List Action) : ∀ c ∈ (run s l).injectorCalls, P c := by
  induction l generalizing s with
  | nil => simpa [run] using hs
  | cons a rest ih =>
    rw [run_cons]
    exact ih (injectorCalls_step hs hmk)

/-- Claim C10: every EventInjector invocation the arbiter ever makes, over
any sequence of hooks and completions from a fresh handler, passes a
strictly positive byte size and exactly one input descriptor, whose
keyboard scan-code field is populated from the redispatched event. -/
theorem injector_calls_wellformed (n : Nat) (l : List Action) :
    ∀ c ∈ (run (initial n) l).injectorCalls,
      0 < c.cbSize ∧ c.cInputs = 1 ∧
      ∃ e : KeyEvent, c.inputs = [{ wScan := e.scancode }] ∧
        c = mkInjectorCall e c.accepted := by
  refine injectorCalls_run (by simp [initial]) ?_ l
  intro e k
  exact ⟨by simp [mkInjectorCall, inputByteSize], rfl, e, rfl, rfl⟩

/-- Witness for `injector_calls_wellformed` at the injector call produced by
the sync-declined unit-test scenario. -/
theorem injector_calls_wellformed_witness :
    0 < (mkInjectorCall eventB 1).cbSize ∧ (mkInjectorCall eventB 1).cInputs = 1 ∧
    ∃ e : KeyEvent, (mkInjectorCall eventB 1).inputs = [{ wScan := e.scancode }] ∧
      mkInjectorCall eventB 1 = mkInjectorCall e (mkInjectorCall eventB 1).accepted :=
  injector_calls_wellformed 1 [Action.hook eventB, Action.resolve 1 false 1]
    (mkInjectorCall eventB 1) (by decide)

theorem count_invariant_step {s : KeyboardKeyHandler} (a : Action)
    (h : s.pendingRedispatches.length + s.guardHits = s.injectorCalls.length) :
    (step s a).pendingRedispatches.length + (step s a).guardHits
      = (step s a).injectorCalls.length := by
  cases a with
  | hook e =>
    by_cases h1 : e ∈ s.pendingRedispatches
    · have hlen : (s.pendingRedispatches.erase e).length
          = s.pendingRedispatches.length - 1 :=
        List.length_erase_of_mem h1
      have hpos : 0 < s.pendingRedispatches.length :=
        List.length_pos.mpr (List.ne_nil_of_mem h1)
      simp only [step, KeyboardHook, h1, if_pos]
      simp only [hlen]
      omega
    · by_cases h2 : s.delegateCount = 0
      · simpa [step, KeyboardHook, h1, h2] using h
      · simpa [step, KeyboardHook, h1, h2] using h
  | resolve q v k =>
    cases hr : (resolveInList s.pendingResponds q v).2 with
    | none => simpa [step, ResolvePendingEvent, hr] using h
    | some e =>
      simp [step, ResolvePendingEvent, hr, RedispatchEvent]
      omega

/-- Claim C5: over every sequence of `KeyboardHook` calls and delegate
completions starting from a fresh handler, `RedispatchedCount` equals the
number of EventInjector calls made so far minus the number of guard hits
observed so far; stated additively over `Nat`, which also shows the
difference is never negative (and that guard hits never exceed
injections). -/
theorem redispatched_count_eq (n : Nat) (l : List Action) :
    RedispatchedCount (run (initial n) l) + (run (initial n) l).guardHits
      = (run (initial n) l).injectorCalls.length := by
  suffices h : ∀ s : KeyboardKeyHandler,
      s.pendingRedispatches.length + s.guardHits = s.injectorCalls.length →
      (run s l).pendingRedispatches.length + (run s l).guardHits
        = (run s l).injectorCalls.length by
    exact h (initial n) (by simp [initial])
  induction l with
  | nil =>
    intro s hs
    simpa [run] using hs
  | cons a rest ih =>
    intro s hs
    rw [run_cons]
    exact ih (step s a) (count_invariant_step a hs)

theorem resolveInList_unique_pos (l1 l2 : List PendingEvent) (p : PendingEvent)
    (h1 : ∀ x ∈ l1, x.sequenceId ≠ p.sequenceId) (v : Bool) :
    resolveInList (l1 ++ p :: l2) p.sequenceId v =
      if p.unreplied - 1 = 0 then
        (l1 ++ l2, if p.anyHandled || v then none else some p.event)
      else
        (l1 ++ { p with anyHandled := p.anyHandled || v,
                        unreplied := p.unreplied - 1 } :: l2, none) := by
  induction l1 with
  | nil =>
    by_cases hz : p.unreplied - 1 = 0 <;> simp [resolveInList, hz]
  | cons x rest ih =>
    have hx : x.sequenceId ≠ p.sequenceId := h1 x (List.mem_cons_self x rest)
    have ih2 := ih (fun y hy => h1 y (List.mem_cons_of_mem x hy))
    by_cases hz : p.unreplied - 1 = 0 <;>
      simp [resolveInList, hx, ih2, hz]

theorem resolveFold_cons (s : KeyboardKeyHandler) (q acc : Nat) (v : Bool)
    (rest : List Bool) :
    resolveFold s q acc (v :: rest)
      = resolveFold (ResolvePendingEvent s q v acc) q acc rest := rfl

theorem resolveFold_spec (verdicts : List Bool) (s : KeyboardKeyHandler)
    (l1 l2 : List PendingEvent) (p : PendingEvent) (acc : Nat)
    (hpr : s.pendingResponds = l1 ++ p :: l2)
    (h1 : ∀ x ∈ l1, x.sequenceId ≠ p.sequenceId)
    (hlen : verdicts.length = p.unreplied)
    (hpos : 0 < p.unreplied) :
    (resolveFold s p.sequenceId acc verdicts).pendingResponds = l1 ++ l2 ∧
    (resolveFold s p.sequenceId acc verdicts).lastSequenceId
      = s.lastSequenceId ∧
    (resolveFold s p.sequenceId acc verdicts).delegateCount
      = s.delegateCount ∧
    (resolveFold s p.sequenceId acc verdicts).delegateCalls
      = s.delegateCalls ∧
    (resolveFold s p.sequenceId acc verdicts).guardHits = s.guardHits ∧
    ((p.anyHandled || verdicts.any id) = true →
      (resolveFold s p.sequenceId acc verdicts).pendingRedispatches
          = s.pendingRedispatches ∧
      (resolveFold s p.sequenceId acc verdicts).injectorCalls
          = s.injectorCalls) ∧
    ((p.anyHandled || verdicts.any id) = false →
      (resolveFold s p.sequenceId acc verdicts).pendingRedispatches
          = s.pendingRedispatches ++ [p.event] ∧
      (resolveFold s p.sequenceId acc verdicts).injectorCalls
          = s.injectorCalls ++ [mkInjectorCall p.event acc]) := by
  induction verdicts generalizing s p with
  | nil =>
    rw [List.length_nil] at hlen
    omega
  | cons v rest ih =>
    by_cases hz : p.unreplied - 1 = 0
    · have hrest : rest = [] := by
        have : rest.length = 0 := by
          rw [List.length_cons] at hlen
          omega
        exact List.eq_nil_of_length_eq_zero this
      subst hrest
      rw [resolveFold_cons]
      by_cases hv : (p.anyHandled || v) = true
      · have hres : ResolvePendingEvent s p.sequenceId v acc
            = { s with pendingResponds := l1 ++ l2 } := by
          simp [ResolvePendingEvent, hpr,
            resolveInList_unique_pos l1 l2 p h1 v, hz, hv]
        simp [resolveFold, hres, hv]
      · have hres : ResolvePendingEvent s p.sequenceId v acc
            = RedispatchEvent { s with pendingResponds := l1 ++ l2 }
                p.event acc := by
          simp only [Bool.not_eq_true] at hv
          simp [ResolvePendingEvent, hpr,
            resolveInList_unique_pos l1 l2 p h1 v, hz, hv]
        simp only [Bool.not_eq_true] at hv
        simp [resolveFold, hres, RedispatchEvent, hv]
    · have hres : ResolvePendingEvent s p.sequenceId v acc
          = { s with pendingResponds :=
              l1 ++ { p with anyHandled := p.anyHandled || v,
                             unreplied := p.unreplied - 1 } :: l2 } := by
        simp [ResolvePendingEvent, hpr,
          resolveInList_unique_pos l1 l2 p h1 v, hz]
      rw [resolveFold_cons, hres]
      have ih2 := ih { s with pendingResponds :=
          l1 ++ { p with anyHandled := p.anyHandled || v,
                         unreplied := p.unreplied - 1 } :: l2 }
        { p with anyHandled := p.anyHandled || v,
                 unreplied := p.unreplied - 1 }
        rfl h1 (by simp only [List.length_cons] at hlen; simp; omega)
        (by simp; omega)
      simpa [Bool.or_assoc] using ih2

/-- Claim C4: resolution of a `PendingEvent` obeys OR-aggregation.  For a
pending event whose delegates deliver the verdicts `verdicts`: if any
verdict is handled=true, the EventInjector is never called for the event
and no fingerprint enters the guard; if all verdicts are handled=false,
the fingerprint is appended to the guard and the EventInjector is called
exactly once, with the one-descriptor call carrying the event's scan
code. -/
theorem resolution_or_aggregation (s : KeyboardKeyHandler)
    (l1 l2 : List PendingEvent) (e : KeyEvent) (seq acc : Nat)
    (verdicts : List Bool)
    (hpr : s.pendingResponds = l1 ++
      { sequenceId := seq, event := e, unreplied := verdicts.length,
        anyHandled := false } :: l2)
    (h1 : ∀ x ∈ l1, x.sequenceId ≠ seq)
    (hpos : 0 < verdicts.length) :
    (verdicts.any id = true →
      (resolveFold s seq acc verdicts).injectorCalls = s.injectorCalls ∧
      (resolveFold s seq acc verdicts).pendingRedispatches
        = s.pendingRedispatches) ∧
    (verdicts.any id = false →
      (resolveFold s seq acc verdicts).injectorCalls
        = s.injectorCalls ++ [mkInjectorCall e acc] ∧
      (resolveFold s seq acc verdicts).pendingRedispatches
        = s.pendingRedispatches ++ [e]) := by
  have h := resolveFold_spec verdicts s l1 l2
    { sequenceId := seq, event := e, unreplied := verdicts.length,
      anyHandled := false } acc hpr h1 rfl hpos
  constructor
  · intro hv
    have h2 := h.2.2.2.2.2.1 (by simp [hv])
    exact ⟨h2.2, h2.1⟩
  · intro hv
    have h2 := h.2.2.2.2.2.2 (by simp [hv])
    exact ⟨h2.2, h2.1⟩

/-- Witness for `resolution_or_aggregation`: the all-unhandled branch at the
state reached by dispatching `eventB` on a fresh single-delegate handler. -/
theorem resolution_or_aggregation_witness :
    (resolveFold (KeyboardHook (initial 1) eventB).2 1 1 [false]).injectorCalls
      = (KeyboardHook (initial 1) eventB).2.injectorCalls
        ++ [mkInjectorCall eventB 1] ∧
    (resolveFold (KeyboardHook (initial 1) eventB).2 1 1
        [false]).pendingRedispatches
      = (KeyboardHook (initial 1) eventB).2.pendingRedispatches ++ [eventB] :=
  (resolution_or_aggregation (KeyboardHook (initial 1) eventB).2 [] [] eventB
    1 1 [false] (by decide) (by decide) (by decide)).2 (by decide)

/-- Claim C2, counterexample: a single delegate that synchronously replies
handled=false (test 2 of `SingleDelegateWithSyncResponds`, lines 218-233 of
the unit tests).  The claim predicts that `KeyboardHook` returns
`any_handled = false`; the test expects — and the model returns — `true`. -/
theorem sync_false_reply_does_not_return_false :
    ¬ ((KeyboardHookAllSync (initial 1) eventB [false] 1).1 = false) := by
  decide

/-- Claim C2, amended: when every delegate replies synchronously (the
pending event's `unreplied` reaches 0 during fan-out), `KeyboardHook`
applies the resolution step inline — the `PendingEvent` is retired and, in
the all-unhandled case, the fingerprint enters the guard and the
EventInjector is called, all before the hook returns — but the hook then
returns `true` (the provisional claim), not the value of `any_handled`. -/
theorem sync_resolution_inline (s : KeyboardKeyHandler) (e : KeyEvent)
    (verdicts : List Bool) (acc : Nat)
    (hg : e ∉ s.pendingRedispatches)
    (hd : s.delegateCount = verdicts.length)
    (hpos : 0 < verdicts.length)
    (hfresh : ∀ p ∈ s.pendingResponds, p.sequenceId ≠ s.lastSequenceId + 1) :
    (KeyboardHookAllSync s e verdicts acc).1 = true ∧
    (KeyboardHookAllSync s e verdicts acc).2.pendingResponds
      = s.pendingResponds ∧
    (verdicts.any id = true →
      (KeyboardHookAllSync s e verdicts acc).2.injectorCalls
          = s.injectorCalls ∧
      RedispatchedCount (KeyboardHookAllSync s e verdicts acc).2
          = RedispatchedCount s) ∧
    (verdicts.any id = false →
      (KeyboardHookAllSync s e verdicts acc).2.injectorCalls
          = s.injectorCalls ++ [mkInjectorCall e acc] ∧
      RedispatchedCount (KeyboardHookAllSync s e verdicts acc).2
          = RedispatchedCount s + 1) := by
  have hd0 : s.delegateCount ≠ 0 := by omega
  have hcond : ¬ (e ∈ s.pendingRedispatches ∨ s.delegateCount = 0) := by
    push_neg
    exact ⟨hg, hd0⟩
  have hall : KeyboardHookAllSync s e verdicts acc
      = ((KeyboardHook s e).1,
         resolveFold (KeyboardHook s e).2 (s.lastSequenceId + 1) acc
           verdicts) := by
    simp [KeyboardHookAllSync, hcond]
  have hkb := KeyboardHook_dispatch s e hg hd0
  have hspec := resolveFold_spec verdicts (KeyboardHook s e).2
    s.pendingResponds []
    { sequenceId := s.lastSequenceId + 1, event := e,
      unreplied := s.delegateCount, anyHandled := false } acc
    (by rw [hkb]) (fun x hx => hfresh x hx) hd.symm
    (Nat.pos_of_ne_zero hd0)
  rw [hkb] at hspec
  simp only [hall, hkb]
  refine ⟨by simp, ?_, ?_, ?_⟩
  · simpa using hspec.1
  · intro hv
    have h2 := hspec.2.2.2.2.2.1 (by simp [hv])
    constructor
    · simpa using h2.2
    · simp only [RedispatchedCount]
      rw [h2.1]
  · intro hv
    have h2 := hspec.2.2.2.2.2.2 (by simp [hv])
    constructor
    · simpa using h2.2
    · simp only [RedispatchedCount]
      rw [h2.1]
      simp

/-- Witness for `sync_resolution_inline`: the sync handled=false scenario of
the unit tests — one delegate, `eventB`, verdict `false`, injector reports
one accepted event. -/
theorem sync_resolution_inline_witness :
    (KeyboardHookAllSync (initial 1) eventB [false] 1).1 = true ∧
    (KeyboardHookAllSync (initial 1) eventB [false] 1).2.pendingResponds
      = (initial 1).pendingResponds ∧
    ([false].any id = true →
      (KeyboardHookAllSync (initial 1) eventB [false] 1).2.injectorCalls
          = (initial 1).injectorCalls ∧
      RedispatchedCount (KeyboardHookAllSync (initial 1) eventB [false] 1).2
          = RedispatchedCount (initial 1)) ∧
    ([false].any id = false →
      (KeyboardHookAllSync (initial 1) eventB [false] 1).2.injectorCalls
          = (initial 1).injectorCalls ++ [mkInjectorCall eventB 1] ∧
      RedispatchedCount (KeyboardHookAllSync (initial 1) eventB [false] 1).2
          = RedispatchedCount (initial 1) + 1) :=
  sync_resolution_inline (initial 1) eventB [false] 1 (by decide) (by decide)
    (by decide) (by simp [initial])

theorem any_id_replicate_false (n : Nat) :
    (List.replicate n false).any id = false := by
  induction n with
  | zero => rfl
  | succ k ih =>
    rw [List.replicate_succ, List.any_cons]
    simp [ih]

/-- Claim C3: the round-trip law.  Dispatch a non-guarded event `e` on a
non-empty registry (`KeyboardHook` returns `true`); let every delegate
eventually reply handled=false; the EventInjector is then called exactly
once for `e`; a subsequent `KeyboardHook` call with the identical
fingerprint returns `false`, invokes no delegate, creates no
`PendingEvent`, removes exactly one occurrence of the fingerprint from the
guard, and restores the guard size to its pre-injection value. -/
theorem resolveFold_spec_fields (verdicts : List Bool)
    (s : KeyboardKeyHandler) (l1 l2 : List PendingEvent) (seq : Nat)
    (ev : KeyEvent) (b : Bool) (acc : Nat)
    (hpr : s.pendingResponds = l1 ++
      { sequenceId := seq, event := ev, unreplied := verdicts.length,
        anyHandled := b } :: l2)
    (h1 : ∀ x ∈ l1, x.sequenceId ≠ seq)
    (hpos : 0 < verdicts.length) :
    (resolveFold s seq acc verdicts).pendingResponds = l1 ++ l2 ∧
    (resolveFold s seq acc verdicts).lastSequenceId = s.lastSequenceId ∧
    (resolveFold s seq acc verdicts).delegateCount = s.delegateCount ∧
    (resolveFold s seq acc verdicts).delegateCalls = s.delegateCalls ∧
    (resolveFold s seq acc verdicts).guardHits = s.guardHits ∧
    ((b || verdicts.any id) = true →
      (resolveFold s seq acc verdicts).pendingRedispatches
          = s.pendingRedispatches ∧
      (resolveFold s seq acc verdicts).injectorCalls = s.injectorCalls) ∧
    ((b || verdicts.any id) = false →
      (resolveFold s seq acc verdicts).pendingRedispatches
          = s.pendingRedispatches ++ [ev] ∧
      (resolveFold s seq acc verdicts).injectorCalls
          = s.injectorCalls ++ [mkInjectorCall ev acc]) :=
  resolveFold_spec verdicts s l1 l2
    { sequenceId := seq, event := ev, unreplied := verdicts.length,
      anyHandled := b } acc hpr h1 rfl hpos

/-- Claim C3: the round-trip law.  Dispatch a non-guarded event `e` on a
non-empty registry (`KeyboardHook` returns `true`); let every delegate
eventually reply handled=false; the EventInjector is then called exactly
once for `e`; a subsequent `KeyboardHook` call with the identical
fingerprint returns `false`, invokes no delegate, creates no
`PendingEvent`, removes exactly one occurrence of the fingerprint from the
guard, and restores the guard size to its pre-injection value (the guard
size before the injection, which equals the size at the original
dispatch). -/
theorem round_trip_law (s : KeyboardKeyHandler) (e : KeyEvent) (acc : Nat)
    (hg : e ∉ s.pendingRedispatches)
    (hd : s.delegateCount ≠ 0)
    (hfresh : ∀ p ∈ s.pendingResponds, p.sequenceId ≠ s.lastSequenceId + 1) :
    (KeyboardHook s e).1 = true ∧
    (resolveFold (KeyboardHook s e).2 (s.lastSequenceId + 1) acc
        (List.replicate s.delegateCount false)).injectorCalls
      = s.injectorCalls ++ [mkInjectorCall e acc] ∧
    (KeyboardHook (resolveFold (KeyboardHook s e).2 (s.lastSequenceId + 1) acc
        (List.replicate s.delegateCount false)) e).1 = false ∧
    (KeyboardHook (resolveFold (KeyboardHook s e).2 (s.lastSequenceId + 1) acc
        (List.replicate s.delegateCount false)) e).2.delegateCalls
      = (resolveFold (KeyboardHook s e).2 (s.lastSequenceId + 1) acc
          (List.replicate s.delegateCount false)).delegateCalls ∧
    (KeyboardHook (resolveFold (KeyboardHook s e).2 (s.lastSequenceId + 1) acc
        (List.replicate s.delegateCount false)) e).2.pendingResponds
      = (resolveFold (KeyboardHook s e).2 (s.lastSequenceId + 1) acc
          (List.replicate s.delegateCount false)).pendingResponds ∧
    (KeyboardHook (resolveFold (KeyboardHook s e).2 (s.lastSequenceId + 1) acc
        (List.replicate s.delegateCount false)) e).2.pendingRedispatches.count
        e + 1
      = (resolveFold (KeyboardHook s e).2 (s.lastSequenceId + 1) acc
          (List.replicate s.delegateCount false)).pendingRedispatches.count
          e ∧
    RedispatchedCount (KeyboardHook (resolveFold (KeyboardHook s e).2
        (s.lastSequenceId + 1) acc
        (List.replicate s.delegateCount false)) e).2
      = RedispatchedCount s := by
  have hkb := KeyboardHook_dispatch s e hg hd
  have hW := resolveFold_spec_fields (List.replicate s.delegateCount false)
    (KeyboardHook s e).2 s.pendingResponds [] (s.lastSequenceId + 1) e false
    acc (by rw [hkb]; simp) (fun x hx => hfresh x hx)
    (by simpa using Nat.pos_of_ne_zero hd)
  have hfact := hW.2.2.2.2.2.2 (by simp [any_id_replicate_false])
  have hg1 : (KeyboardHook s e).2.pendingRedispatches
      = s.pendingRedispatches := by rw [hkb]
  have hi1 : (KeyboardHook s e).2.injectorCalls = s.injectorCalls := by
    rw [hkb]
  rw [hg1, hi1] at hfact
  have hmem : e ∈ (resolveFold (KeyboardHook s e).2 (s.lastSequenceId + 1)
      acc (List.replicate s.delegateCount false)).pendingRedispatches := by
    rw [hfact.1]
    simp
  have hhit := KeyboardHook_guard_hit _ e hmem
  refine ⟨by rw [hkb], hfact.2, by rw [hhit], by rw [hhit], by rw [hhit],
    ?_, ?_⟩
  · rw [hhit]
    show ((resolveFold (KeyboardHook s e).2 (s.lastSequenceId + 1) acc
        (List.replicate s.delegateCount false)).pendingRedispatches.erase
          e).count e + 1
      = (resolveFold (KeyboardHook s e).2 (s.lastSequenceId + 1) acc
          (List.replicate s.delegateCount false)).pendingRedispatches.count e
    rw [hfact.1]
    rw [List.count_erase_self]
    simp [List.count_append]
  · rw [hhit]
    show ((resolveFold (KeyboardHook s e).2 (s.lastSequenceId + 1) acc
        (List.replicate s.delegateCount false)).pendingRedispatches.erase
          e).length = RedispatchedCount s
    rw [hfact.1]
    rw [List.length_erase_of_mem (by simp)]
    simp [RedispatchedCount]

/-- Witness for `round_trip_law`: the async unit-test scenario — dispatch
`eventB` on a fresh single-delegate handler, the delegate replies
handled=false, the injector accepts one event, and `eventB` re-enters. -/
theorem round_trip_law_witness :
    (KeyboardHook (initial 1) eventB).1 = true ∧
    (resolveFold (KeyboardHook (initial 1) eventB).2 1 1
        (List.replicate 1 false)).injectorCalls
      = (initial 1).injectorCalls ++ [mkInjectorCall eventB 1] ∧
    (KeyboardHook (resolveFold (KeyboardHook (initial 1) eventB).2 1 1
        (List.replicate 1 false)) eventB).1 = false ∧
    (KeyboardHook (resolveFold (KeyboardHook (initial 1) eventB).2 1 1
        (List.replicate 1 false)) eventB).2.delegateCalls
      = (resolveFold (KeyboardHook (initial 1) eventB).2 1 1
          (List.replicate 1 false)).delegateCalls ∧
    (KeyboardHook (resolveFold (KeyboardHook (initial 1) eventB).2 1 1
        (List.replicate 1 false)) eventB).2.pendingResponds
      = (resolveFold (KeyboardHook (initial 1) eventB).2 1 1
          (List.replicate 1 false)).pendingResponds ∧
    (KeyboardHook (resolveFold (KeyboardHook (initial 1) eventB).2 1 1
        (List.replicate 1 false)) eventB).2.pendingRedispatches.count eventB
        + 1
      = (resolveFold (KeyboardHook (initial 1) eventB).2 1 1
          (List.replicate 1 false)).pendingRedispatches.count eventB ∧
    RedispatchedCount (KeyboardHook (resolveFold
        (KeyboardHook (initial 1) eventB).2 1 1
        (List.replicate 1 false)) eventB).2
      = RedispatchedCount (initial 1) :=
  round_trip_law (initial 1) eventB 1 (by decide) (by decide)
    (by simp [initial])

theorem ResolvePendingEvent_fields (s : KeyboardKeyHandler) (q : Nat)
    (v : Bool) (k : Nat) :
    (ResolvePendingEvent s q v k).pendingResponds
      = (resolveInList s.pendingResponds q v).1 ∧
    (ResolvePendingEvent s q v k).delegateCount = s.delegateCount ∧
    (ResolvePendingEvent s q v k).lastSequenceId = s.lastSequenceId ∧
    (ResolvePendingEvent s q v k).delegateCalls = s.delegateCalls ∧
    (ResolvePendingEvent s q v k).guardHits = s.guardHits ∧
    (ResolvePendingEvent s q v k).pendingRedispatches
      = s.pendingRedispatches
        ++ (resolveInList s.pendingResponds q v).2.toList ∧
    (ResolvePendingEvent s q v k).injectorCalls
      = s.injectorCalls
        ++ ((resolveInList s.pendingResponds q v).2.map
              (fun e => mkInjectorCall e k)).toList := by
  cases hr : (resolveInList s.pendingResponds q v).2 with
  | none => simp [ResolvePendingEvent, hr, RedispatchEvent]
  | some e => simp [ResolvePendingEvent, hr, RedispatchEvent]

theorem resolveInList_comm (l : List PendingEvent) (q q' : Nat) (v v' : Bool)
    (hne : q ≠ q') :
    (resolveInList (resolveInList l q v).1 q' v').1
      = (resolveInList (resolveInList l q' v').1 q v).1 ∧
    (resolveInList (resolveInList l q v).1 q' v').2
      = (resolveInList l q' v').2 ∧
    (resolveInList (resolveInList l q' v').1 q v).2
      = (resolveInList l q v).2 := by
  induction l with
  | nil => simp [resolveInList]
  | cons x rest ih =>
    by_cases hq : x.sequenceId = q
    · have hq' : ¬ x.sequenceId = q' := by rw [hq]; exact hne
      by_cases hz : x.unreplied - 1 = 0
      · simp [resolveInList, hq, hq', hz, hne, hne.symm]
      · simp [resolveInList, hq, hq', hz, hne, hne.symm]
    · by_cases hq' : x.sequenceId = q'
      · by_cases hz : x.unreplied - 1 = 0
        · simp [resolveInList, hq, hq', hz, hne, hne.symm]
        · simp [resolveInList, hq, hq', hz, hne, hne.symm]
      · simp only [resolveInList, hq, hq', if_neg, ite_false]
        simp [ih.1, ih.2.1, ih.2.2]

theorem stateSim_refl (s : KeyboardKeyHandler) : StateSim s s :=
  ⟨rfl, rfl, rfl, List.Perm.refl _, List.Perm.refl _, rfl⟩

theorem stateSim_symm {s t : KeyboardKeyHandler} (h : StateSim s t) :
    StateSim t s := by
  obtain ⟨h1, h2, h3, h4, h5, h6⟩ := h
  exact ⟨h1.symm, h2.symm, h3.symm, h4.symm, h5.symm, h6.symm⟩

theorem stateSim_trans {s t u : KeyboardKeyHandler} (h : StateSim s t)
    (h' : StateSim t u) : StateSim s u := by
  obtain ⟨h1, h2, h3, h4, h5, h6⟩ := h
  obtain ⟨g1, g2, g3, g4, g5, g6⟩ := h'
  exact ⟨h1.trans g1, h2.trans g2, h3.trans g3, h4.trans g4, h5.trans g5,
    h6.trans g6⟩

theorem stateSim_step {s t : KeyboardKeyHandler} (h : StateSim s t)
    (a : Action) : StateSim (step s a) (step t a) := by
  obtain ⟨h1, h2, h3, h4, h5, h6⟩ := h
  cases a with
  | hook e =>
    by_cases hm : e ∈ s.pendingRedispatches
    · have hm' : e ∈ t.pendingRedispatches := h4.mem_iff.mp hm
      exact ⟨by simp [step, KeyboardHook, hm, hm', h1],
        by simp [step, KeyboardHook, hm, hm', h2],
        by simp [step, KeyboardHook, hm, hm', h3],
        by simp [step, KeyboardHook, hm, hm', h4.erase e],
        by simpa [step, KeyboardHook, hm, hm'] using h5,
        by simp [step, KeyboardHook, hm, hm', h6]⟩
    · have hm' : e ∉ t.pendingRedispatches := fun hh => hm (h4.mem_iff.mpr hh)
      by_cases hz : s.delegateCount = 0
      · have hz' : t.delegateCount = 0 := h1 ▸ hz
        exact ⟨by simp [step, KeyboardHook, hm, hm', hz, hz', h1],
          by simp [step, KeyboardHook, hm, hm', hz, hz', h2],
          by simp [step, KeyboardHook, hm, hm', hz, hz', h3],
          by simpa [step, KeyboardHook, hm, hm', hz, hz'] using h4,
          by simpa [step, KeyboardHook, hm, hm', hz, hz'] using h5,
          by simp [step, KeyboardHook, hm, hm', hz, hz', h6]⟩
      · have hz' : t.delegateCount ≠ 0 := fun hh => hz (h1 ▸ hh)
        exact ⟨by simp [step, KeyboardHook, hm, hm', hz, hz', h1],
          by simp [step, KeyboardHook, hm, hm', hz, hz', h2],
          by simp [step, KeyboardHook, hm, hm', hz, hz', h1, h2, h3],
          by simpa [step, KeyboardHook, hm, hm', hz, hz'] using h4,
          by simpa [step, KeyboardHook, hm, hm', hz, hz'] using h5,
          by simp [step, KeyboardHook, hm, hm', hz, hz', h6]⟩
  | resolve q v k =>
    have hs := ResolvePendingEvent_fields s q v k
    have ht := ResolvePendingEvent_fields t q v k
    rw [h3] at hs
    refine ⟨?_, ?_, ?_, ?_, ?_, ?_⟩
    · rw [show step s (Action.resolve q v k) = ResolvePendingEvent s q v k
        from rfl, show step t (Action.resolve q v k)
        = ResolvePendingEvent t q v k from rfl, hs.2.1, ht.2.1, h1]
    · rw [show step s (Action.resolve q v k) = ResolvePendingEvent s q v k
        from rfl, show step t (Action.resolve q v k)
        = ResolvePendingEvent t q v k from rfl, hs.2.2.1, ht.2.2.1, h2]
    · rw [show step s (Action.resolve q v k) = ResolvePendingEvent s q v k
        from rfl, show step t (Action.resolve q v k)
        = ResolvePendingEvent t q v k from rfl, hs.1, ht.1]
    · rw [show step s (Action.resolve q v k) = ResolvePendingEvent s q v k
        from rfl, show step t (Action.resolve q v k)
        = ResolvePendingEvent t q v k from rfl, hs.2.2.2.2.2.1,
        ht.2.2.2.2.2.1]
      exact h4.append (List.Perm.refl _)
    · rw [show step s (Action.resolve q v k) = ResolvePendingEvent s q v k
        from rfl, show step t (Action.resolve q v k)
        = ResolvePendingEvent t q v k from rfl, hs.2.2.2.2.2.2,
        ht.2.2.2.2.2.2]
      exact h5.append (List.Perm.refl _)
    · rw [show step s (Action.resolve q v k) = ResolvePendingEvent s q v k
        from rfl, show step t (Action.resolve q v k)
        = ResolvePendingEvent t q v k from rfl, hs.2.2.2.2.1,
        ht.2.2.2.2.1, h6]

theorem stateSim_run {s t : KeyboardKeyHandler} (h : StateSim s t)
    (l : List Action) : StateSim (run s l) (run t l) := by
  induction l generalizing s t with
  | nil => exact h
  | cons a rest ih =>
    rw [run_cons, run_cons]
    exact ih (stateSim_step h a)

theorem stateSim_resolve_comm (s : KeyboardKeyHandler) (q q' : Nat)
    (v v' : Bool) (k k' : Nat) (hne : q ≠ q') :
    StateSim (ResolvePendingEvent (ResolvePendingEvent s q v k) q' v' k')
      (ResolvePendingEvent (ResolvePendingEvent s q' v' k') q v k) := by
  have hc := resolveInList_comm s.pendingResponds q q' v v' hne
  have f1 := ResolvePendingEvent_fields s q v k
  have f2 := ResolvePendingEvent_fields (ResolvePendingEvent s q v k) q' v' k'
  have g1 := ResolvePendingEvent_fields s q' v' k'
  have g2 := ResolvePendingEvent_fields (ResolvePendingEvent s q' v' k') q v k
  rw [f1.1] at f2
  rw [g1.1] at g2
  refine ⟨?_, ?_, ?_, ?_, ?_, ?_⟩
  · rw [f2.2.1, f1.2.1, g2.2.1, g1.2.1]
  · rw [f2.2.2.1, f1.2.2.1, g2.2.2.1, g1.2.2.1]
  · rw [f2.1, g2.1, hc.1]
  · rw [f2.2.2.2.2.2.1, f1.2.2.2.2.2.1, g2.2.2.2.2.2.1, g1.2.2.2.2.2.1,
      hc.2.1, hc.2.2, List.append_assoc, List.append_assoc]
    exact List.Perm.append_left _ (List.perm_append_comm)
  · rw [f2.2.2.2.2.2.2, f1.2.2.2.2.2.2, g2.2.2.2.2.2.2, g1.2.2.2.2.2.2,
      hc.2.1, hc.2.2, List.append_assoc, List.append_assoc]
    exact List.Perm.append_left _ (List.perm_append_comm)
  · rw [f2.2.2.2.2.1, f1.2.2.2.2.1, g2.2.2.2.2.1, g1.2.2.2.2.1]

theorem resolve_bubble (q q' : Nat) (hne : q ≠ q') (la : List Action)
    (h1 : ∀ a ∈ la, IsResolveOf q a) (b : Action) (hb : IsResolveOf q' b)
    (rest : List Action) (s : KeyboardKeyHandler) :
    StateSim (run s (la ++ b :: rest)) (run s (b :: (la ++ rest))) := by
  obtain ⟨vb, kb, hbb⟩ : ∃ v k, b = Action.resolve q' v k := by
    cases b with
    | hook e => simp [IsResolveOf] at hb
    | resolve qq v k =>
      simp only [IsResolveOf] at hb
      subst hb
      exact ⟨v, k, rfl⟩
  subst hbb
  induction la generalizing s with
  | nil => exact stateSim_refl _
  | cons x xs ih =>
    obtain ⟨vx, kx, hxx⟩ : ∃ v k, x = Action.resolve q v k := by
      have hx := h1 x (List.mem_cons_self x xs)
      cases x with
      | hook e => simp [IsResolveOf] at hx
      | resolve qq v k =>
        simp only [IsResolveOf] at hx
        subst hx
        exact ⟨v, k, rfl⟩
    subst hxx
    have ih2 := ih (fun a ha => h1 a (List.mem_cons_of_mem _ ha)) (step s
      (Action.resolve q vx kx))
    have hcomm := stateSim_resolve_comm s q q' vx vb kx kb hne
    exact stateSim_trans ih2 (stateSim_run hcomm (xs ++ rest))

theorem interleave_run_sim (q q' : Nat) (hne : q ≠ q')
    (l1 l2 l : List Action) (hint : Interleave l1 l2 l)
    (h1 : ∀ a ∈ l1, IsResolveOf q a) (h2 : ∀ a ∈ l2, IsResolveOf q' a) :
    ∀ s : KeyboardKeyHandler, StateSim (run s l) (run s (l1 ++ l2)) := by
  revert h1 h2
  induction hint with
  | nil =>
    intro _ _ s
    exact stateSim_refl _
  | @left a l1x l2x lx h ih =>
    intro h1 h2 s
    exact ih (fun y hy => h1 y (List.mem_cons_of_mem a hy)) h2
      (step s a)
  | @right a l1x l2x lx h ih =>
    intro h1 h2 s
    have hstep := ih h1 (fun y hy => h2 y (List.mem_cons_of_mem a hy))
      (step s a)
    have hbub := resolve_bubble q q' hne l1x h1 a
      (h2 a (List.mem_cons_self a l2x)) l2x s
    exact stateSim_trans hstep (stateSim_symm hbub)

/-- Claim C6: out-of-order completion.  For two in-flight `PendingEvent`s
with distinct sequence ids `q` and `q'`, delivering their two bursts of
delegate verdicts in any interleaving `l` yields the same final
`RedispatchGuard` contents — the same multiset of fingerprints, stated as
`List.Perm` — as delivering them in dispatch order (`l1 ++ l2`), along
with the same in-flight set and the same multiset of injector calls. -/
theorem out_of_order_completion (q q' : Nat) (l1 l2 l : List Action)
    (hne : q ≠ q') (h1 : ∀ a ∈ l1, IsResolveOf q a)
    (h2 : ∀ a ∈ l2, IsResolveOf q' a) (hint : Interleave l1 l2 l)
    (s : KeyboardKeyHandler) :
    List.Perm (run s l).pendingRedispatches
      (run s (l1 ++ l2)).pendingRedispatches ∧
    (run s l).pendingResponds = (run s (l1 ++ l2)).pendingResponds ∧
    List.Perm (run s l).injectorCalls (run s (l1 ++ l2)).injectorCalls := by
  have h := interleave_run_sim q q' hne l1 l2 l hint h1 h2 s
  exact ⟨h.2.2.2.1, h.2.2.1, h.2.2.2.2.1⟩

/-- Witness for `out_of_order_completion`: the out-of-order scenario of the
async unit test — dispatch `eventB` then `eventC`, then resolve the second
event first, compared with resolving in dispatch order. -/
theorem out_of_order_completion_witness :
    List.Perm
      (run (run (initial 1) [Action.hook eventB, Action.hook eventC])
        [Action.resolve 2 false 1,
         Action.resolve 1 false 1]).pendingRedispatches
      (run (run (initial 1) [Action.hook eventB, Action.hook eventC])
        ([Action.resolve 1 false 1]
          ++ [Action.resolve 2 false 1])).pendingRedispatches ∧
    (run (run (initial 1) [Action.hook eventB, Action.hook eventC])
        [Action.resolve 2 false 1,
         Action.resolve 1 false 1]).pendingResponds
      = (run (run (initial 1) [Action.hook eventB, Action.hook eventC])
          ([Action.resolve 1 false 1]
            ++ [Action.resolve 2 false 1])).pendingResponds ∧
    List.Perm
      (run (run (initial 1) [Action.hook eventB, Action.hook eventC])
        [Action.resolve 2 false 1,
         Action.resolve 1 false 1]).injectorCalls
      (run (run (initial 1) [Action.hook eventB, Action.hook eventC])
        ([Action.resolve 1 false 1]
          ++ [Action.resolve 2 false 1])).injectorCalls :=
  out_of_order_completion 1 2 [Action.resolve 1 false 1]
    [Action.resolve 2 false 1]
    [Action.resolve 2 false 1, Action.resolve 1 false 1] (by decide)
    (by
      intro a ha
      rw [List.mem_singleton] at ha
      subst ha
      rfl)
    (by
      intro a ha
      rw [List.mem_singleton] at ha
      subst ha
      rfl)
    (Interleave.right (Interleave.left Interleave.nil))
    (run (initial 1) [Action.hook eventB, Action.hook eventC])
